import Mathlib

/-
Verification of the sor-viewer core: order-book simulation engine, best-price
routing allocator, and execution replay.  Shallow embedding of the TypeScript
sources:
  src/core/types/market.ts        (data model)
  src/core/venues/market-simulator.ts  (MarketSimulator)
  src/core/sor/sor-engine.ts      (SOREngine.generateRoutingPlan)
  src/core/sor/strategies (index) (executeBestPriceStrategy, per-price-level)
  src/core/sor/execution-simulator.ts  (simulateExecution)
JavaScript numbers are modelled as rationals; Map<string, OrderBook> is
modelled as an association list with keyed lookup; the Math.random() stream
is modelled as an explicit draw sequence (a function from draw index to a
rational in [0,1)).
-/

namespace SOR

/-- Side of an order, from src/core/types/market.ts (OrderSide). -/
inductive OrderSide where
  | BID
  | ASK
deriving DecidableEq, Repr

/-- Type of an order, from src/core/types/market.ts (OrderType). -/
inductive OrderType where
  | MARKET
  | LIMIT
  | ICEBERG
  | HIDDEN
  | POST_ONLY
deriving DecidableEq, Repr

/-- A price level of one side of an order book (market.ts PriceLevel). -/
structure PriceLevel where
  price : ℚ
  quantity : ℚ
  orderCount : ℚ
deriving DecidableEq, Repr

/-- Order book of one venue (market.ts OrderBook). -/
structure OrderBook where
  venueId : String
  symbol : String
  bids : List PriceLevel
  asks : List PriceLevel
  timestamp : ℚ
  spread : ℚ
  midPrice : ℚ
deriving DecidableEq, Repr

/-- An order (market.ts Order).  The fields status, venueId, parentOrderId and
displayQuantity play no role in the verified core and are omitted. -/
structure Order where
  id : String
  symbol : String
  side : OrderSide
  type : OrderType
  price : Option ℚ
  quantity : ℚ
  filledQuantity : ℚ
  timestamp : ℚ
deriving DecidableEq, Repr

/-- A trading venue (market.ts Venue). -/
structure Venue where
  id : String
  name : String
  displayName : String
  makerFee : ℚ
  takerFee : ℚ
  latency : ℚ
  active : Bool
  color : String
deriving DecidableEq, Repr

/-- The two sides of a book, the TypeScript union type given by bid and ask. -/
inductive BookSide where
  | bid
  | ask
deriving DecidableEq, Repr

/-- Side of the book consumed by an order: a BID order takes ask liquidity and
an ASK order takes bid liquidity.  This is the side-selection rule written
identically in the strategy and in simulateExecution. -/
def consumingSide : OrderSide → BookSide
  | OrderSide.BID => BookSide.ask
  | OrderSide.ASK => BookSide.bid

/-- Levels of the chosen side of a book. -/
def sideLevels (book : OrderBook) : BookSide → List PriceLevel
  | BookSide.bid => book.bids
  | BookSide.ask => book.asks

/-- Keyed lookup in the association list that models Map<string, OrderBook>. -/
def lookupBook (id : String) (books : List (String × OrderBook)) : Option OrderBook :=
  (books.find? (fun p => p.1 = id)).map (fun p => p.2)

/-- Routing strategies (sor.ts RoutingStrategy). -/
inductive RoutingStrategy where
  | BEST_PRICE
  | PRO_RATA
  | VWAP
  | TWAP
  | MINIMIZE_IMPACT
  | MINIMIZE_COST
deriving DecidableEq, Repr

/-- SOR configuration (sor.ts SORConfig).  The unused optional timeLimit is
omitted. -/
structure SORConfig where
  strategy : RoutingStrategy
  maxVenues : ℤ
  minQuantityPerVenue : ℚ
  considerFees : Bool
  considerLatency : Bool
  allowPartialFills : Bool
deriving DecidableEq, Repr

/-- One allocation decision (sor.ts RoutingDecision).  The rationale field is
a display-only formatted string and is omitted from the model. -/
structure RoutingDecision where
  venueId : String
  quantity : ℚ
  expectedPrice : ℚ
  expectedFees : ℚ
  priority : ℕ
deriving DecidableEq, Repr

/-- A price level tagged with its owning venue, the local PriceLevel record of
the strategy module. -/
structure VenuePriceLevel where
  venueId : String
  venue : Venue
  price : ℚ
  quantity : ℚ
deriving DecidableEq, Repr

/-- Flatten the consuming side of every active venue with a book into one
global list of venue-tagged price levels, in venue order then book-depth
order, exactly as the venues.forEach loop of the strategy builds
allPriceLevels. -/
def gatherAllPriceLevels (venues : List Venue) (books : List (String × OrderBook))
    (side : BookSide) : List VenuePriceLevel :=
  venues.flatMap (fun v =>
    if v.active then
      match lookupBook v.id books with
      | some ob => (sideLevels ob side).map (fun l => ⟨v.id, v, l.price, l.quantity⟩)
      | none => []
    else [])

/-- Greedy walk of the sorted global level list: at each level take
min(remaining, level.quantity), emit one decision per touched level with
expectedFees 0 and a strictly increasing priority counter, stop when the
remaining quantity is no longer positive.  This is the for-loop of the
strategy. -/
def walkLevels : ℚ → ℕ → List VenuePriceLevel → List RoutingDecision
  | _, _, [] => []
  | remaining, prio, l :: ls =>
    if remaining ≤ 0 then []
    else
      let take := min remaining l.quantity
      ⟨l.venueId, take, l.price, 0, prio⟩ :: walkLevels (remaining - take) (prio + 1) ls

/-- The best-price strategy of src/core/sor/strategies: flatten all levels,
sort by price (ascending for a BID order, descending for an ASK order, a
stable sort modelling Array.prototype.sort), then walk greedily.  The limit
price of the order is never consulted. -/
def executeBestPriceStrategy (order : Order) (venues : List Venue)
    (books : List (String × OrderBook)) : List RoutingDecision :=
  let side := consumingSide order.side
  let allPriceLevels := gatherAllPriceLevels venues books side
  if allPriceLevels.isEmpty then []
  else
    let sorted :=
      if order.side = OrderSide.BID then
        List.insertionSort (fun a b => a.price ≤ b.price) allPriceLevels
      else
        List.insertionSort (fun a b => b.price ≤ a.price) allPriceLevels
    walkLevels order.quantity 0 sorted

/-- Typed rendering of the errors thrown by SOREngine.generateRoutingPlan; the
insufficientLiquidity message carries the requested and available
quantities. -/
inductive SORError where
  | invalidOrder
  | noVenuesProvided
  | noOrderBooksProvided
  | noEligibleVenues
  | strategyNotImplemented (s : RoutingStrategy)
  | unableToAllocate
  | insufficientLiquidity (requested : ℚ) (available : ℚ)
deriving DecidableEq, Repr

/-- A complete routing plan (sor.ts RoutingPlan). -/
structure RoutingPlan where
  parentOrderId : String
  strategy : RoutingStrategy
  decisions : List RoutingDecision
  totalQuantity : ℚ
  estimatedAvgPrice : ℚ
  estimatedTotalCost : ℚ
  estimatedSlippage : ℚ
  timestamp : ℚ
deriving DecidableEq, Repr

/-- Eligible venues: active and having an order book (SOREngine.filterVenues). -/
def filterVenues (venues : List Venue) (books : List (String × OrderBook)) : List Venue :=
  venues.filter (fun v => v.active && (lookupBook v.id books).isSome)

/-- Sum of the quantities of a decision list. -/
def sumQuantities (ds : List RoutingDecision) : ℚ :=
  (ds.map (fun d => d.quantity)).sum

/-- Quantity-weighted price sum of a decision list. -/
def weightedPriceSum (ds : List RoutingDecision) : ℚ :=
  (ds.map (fun d => d.expectedPrice * d.quantity)).sum

/-- Sum of the expected fees of a decision list. -/
def sumFees (ds : List RoutingDecision) : ℚ :=
  (ds.map (fun d => d.expectedFees)).sum

/-- Step 4 of generateRoutingPlan: drop decisions below minQuantityPerVenue,
applied only when the configured minimum is positive. -/
def minQtyFilter (cfg : SORConfig) (ds : List RoutingDecision) : List RoutingDecision :=
  if cfg.minQuantityPerVenue > 0 then ds.filter (fun d => cfg.minQuantityPerVenue ≤ d.quantity)
  else ds

/-- Step 5 of generateRoutingPlan: truncate to the first maxVenues decisions,
applied only when maxVenues is positive and the list is longer than it. -/
def capMaxVenues (cfg : SORConfig) (ds : List RoutingDecision) : List RoutingDecision :=
  if cfg.maxVenues > 0 ∧ cfg.maxVenues < (ds.length : ℤ) then ds.take cfg.maxVenues.toNat
  else ds

/-- Global metric triple of SOREngine.calculateMetrics. -/
structure Metrics where
  avgPrice : ℚ
  totalCost : ℚ
  slippage : ℚ
deriving DecidableEq, Repr

/-- SOREngine.calculateMetrics: volume-weighted average price, total cost as
weighted price sum plus fee sum, and slippage against the limit price when one
is present. -/
def calculateMetrics (ds : List RoutingDecision) (order : Order) : Metrics :=
  if ds.isEmpty then ⟨0, 0, 0⟩
  else
    let totalQuantity := sumQuantities ds
    let wps := weightedPriceSum ds
    let avgPrice := wps / totalQuantity
    let totalCost := wps + sumFees ds
    let slippage :=
      match order.price with
      | some p => |avgPrice - p|
      | none => 0
    ⟨avgPrice, totalCost, slippage⟩

/-- Final sort of the decisions by ascending priority (a stable sort modelling
the Array.prototype.sort comparator on priority). -/
def sortByPriority (ds : List RoutingDecision) : List RoutingDecision :=
  List.insertionSort (fun a b => a.priority ≤ b.priority) ds

/-- Decisions surviving the post-processing steps 4 and 5 of the engine, after
running the strategy on the eligible venues. -/
def postDecisions (order : Order) (venues : List Venue)
    (books : List (String × OrderBook)) (cfg : SORConfig) : List RoutingDecision :=
  capMaxVenues cfg (minQtyFilter cfg (executeBestPriceStrategy order (filterVenues venues books) books))

/-- SOREngine.generateRoutingPlan.  The Date.now() timestamp is passed in as
the argument now; errors thrown by the source become Except.error values. -/
def generateRoutingPlan (order : Order) (venues : List Venue)
    (books : List (String × OrderBook)) (cfg : SORConfig) (now : ℚ) :
    Except SORError RoutingPlan :=
  if order.quantity ≤ 0 then Except.error SORError.invalidOrder
  else if venues.isEmpty then Except.error SORError.noVenuesProvided
  else if books.isEmpty then Except.error SORError.noOrderBooksProvided
  else
    let eligibleVenues := filterVenues venues books
    if eligibleVenues.isEmpty then Except.error SORError.noEligibleVenues
    else if cfg.strategy = RoutingStrategy.BEST_PRICE then
      let ds := postDecisions order venues books cfg
      let totalAllocated := sumQuantities ds
      if totalAllocated = 0 then Except.error SORError.unableToAllocate
      else if cfg.allowPartialFills = false ∧ totalAllocated < order.quantity then
        Except.error (SORError.insufficientLiquidity order.quantity totalAllocated)
      else
        let m := calculateMetrics ds order
        Except.ok
          { parentOrderId := order.id
            strategy := cfg.strategy
            decisions := sortByPriority ds
            totalQuantity := totalAllocated
            estimatedAvgPrice := m.avgPrice
            estimatedTotalCost := m.totalCost
            estimatedSlippage := m.slippage
            timestamp := now }
    else Except.error (SORError.strategyNotImplemented cfg.strategy)

/-- Per-level record of the execution replay (execution-simulator.ts
PriceLevelExecution). -/
structure PriceLevelExecution where
  price : ℚ
  quantityTaken : ℚ
  quantityRemaining : ℚ
  percentageTaken : ℚ
deriving DecidableEq, Repr

/-- Result of the execution replay (execution-simulator.ts
VenueExecutionDetail). -/
structure VenueExecutionDetail where
  venueId : String
  side : BookSide
  totalQuantity : ℚ
  levels : List PriceLevelExecution
  avgPrice : ℚ
deriving DecidableEq, Repr

/-- Loop of simulateExecution: returns the executed level list and the final
totalCost accumulator.  The loop checks the break condition before processing
each level.  When a level has quantity 0 the percentage is 0/0, which
JavaScript renders as NaN and the rational model as 0. -/
def simExecGo : ℚ → ℚ → List PriceLevel → List PriceLevelExecution × ℚ
  | _, acc, [] => ([], acc)
  | remaining, acc, l :: ls =>
    if remaining ≤ 0 then ([], acc)
    else
      let take := min remaining l.quantity
      let res := simExecGo (remaining - take) (acc + take * l.price) ls
      (⟨l.price, take, l.quantity - take, take / l.quantity * 100⟩ :: res.1, res.2)

/-- simulateExecution of execution-simulator.ts: walk the consuming side of
the book best-first, consume min(remaining, level.quantity) per level, and
divide the accumulated cost by the requested quantityToFill (0 when no level
was touched).  The venueId field is left empty for the caller to fill. -/
def simulateExecution (orderBook : OrderBook) (order : Order) (quantityToFill : ℚ) :
    VenueExecutionDetail :=
  let side := consumingSide order.side
  let levels := sideLevels orderBook side
  let res := simExecGo quantityToFill 0 levels
  let avgPrice := if res.1.isEmpty then 0 else res.2 / quantityToFill
  { venueId := ""
    side := side
    totalQuantity := quantityToFill
    levels := res.1
    avgPrice := avgPrice }

/-- Rounding of a price to 2 decimals: Math.round(x * 100) / 100, with
Math.round modelled as floor(y + 1/2), which matches its round-half-up
towards positive infinity behaviour. -/
def round2 (x : ℚ) : ℚ := ((⌊x * 100 + 1 / 2⌋ : ℤ) : ℚ) / 100

/-- Math.round on a rational. -/
def jsRound (x : ℚ) : ℚ := ((⌊x + 1 / 2⌋ : ℤ) : ℚ)

/-- Per-side direction multiplier of MarketSimulator.generatePriceLevels. -/
def sideDirection : BookSide → ℚ
  | BookSide.bid => -1
  | BookSide.ask => 1

/-- MarketSimulator.generatePriceLevels.  u is the stream of Math.random()
draws, three per depth index, consumed in source order (price jitter,
quantity factor, order-count factor); exp5 i stands for the irrational value
Math.exp(-i / 5) of the source, taken as a parameter of the model. -/
def generatePriceLevels (startPrice : ℚ) (side : BookSide) (levels : ℕ)
    (u : ℕ → ℚ) (exp5 : ℕ → ℚ) : List PriceLevel :=
  (List.range levels).map (fun i =>
    let price := startPrice + sideDirection side * i * (1 / 100) * (1 + u (3 * i))
    let quantity := jsRound (1000 * exp5 i * (1 / 2 + u (3 * i + 1)) / 100) * 100
    let orderCount := max 1 (jsRound (quantity / 200 * u (3 * i + 2)))
    { price := round2 price, quantity := quantity, orderCount := orderCount })

/-- MarketSimulator.generateOrderBook.  basePrice and volatility are the
fields of the simulator instance; u is the Math.random() stream (draw 0 for
the venue variance, draw 1 for the base spread, then 45 draws for the bid
levels and 45 for the ask levels); now models Date.now(). -/
def generateOrderBook (basePrice volatility : ℚ) (venue : Venue) (symbol : String)
    (u : ℕ → ℚ) (exp5 : ℕ → ℚ) (now : ℚ) : OrderBook :=
  let venueVariance := (u 0 - 1 / 2) * volatility
  let midPrice := basePrice + venueVariance
  let baseSpread := 1 / 100 + u 1 * (2 / 100)
  let spread := baseSpread * (1 + venue.latency / 100)
  let bestBid := midPrice - spread / 2
  let bestAsk := midPrice + spread / 2
  { venueId := venue.id
    symbol := symbol
    bids := generatePriceLevels bestBid BookSide.bid 15 (fun n => u (2 + n)) exp5
    asks := generatePriceLevels bestAsk BookSide.ask 15 (fun n => u (47 + n)) exp5
    timestamp := now
    spread := bestAsk - bestBid
    midPrice := midPrice }

/-- MarketSimulator.updateOrderBook.  Returns the advanced base price (the
mutated this.basePrice of the source) together with the regenerated book;
draw 0 is the price-change draw, then 45 draws per side. -/
def updateOrderBook (basePrice volatility : ℚ) (book : OrderBook)
    (u : ℕ → ℚ) (exp5 : ℕ → ℚ) (now : ℚ) : ℚ × OrderBook :=
  let priceChange := (u 0 - 1 / 2) * volatility * (1 / 10)
  let newBasePrice := basePrice + priceChange
  let spread := book.spread
  let newMidPrice := newBasePrice
  let bestBid := newMidPrice - spread / 2
  let bestAsk := newMidPrice + spread / 2
  (newBasePrice,
    { book with
      bids := generatePriceLevels bestBid BookSide.bid 15 (fun n => u (1 + n)) exp5
      asks := generatePriceLevels bestAsk BookSide.ask 15 (fun n => u (46 + n)) exp5
      timestamp := now
      midPrice := newMidPrice })

/-- MarketSimulator.getTotalLiquidity: total quantity resting on one side. -/
def getTotalLiquidity (orderBook : OrderBook) (side : BookSide) : ℚ :=
  ((sideLevels orderBook side).map (fun l => l.quantity)).sum

/-- Loop of MarketSimulator.calculateVWAP: accumulate value and taken
quantity level by level; the break condition is checked after processing each
level. -/
def vwapGo : ℚ → ℚ → ℚ → List PriceLevel → ℚ × ℚ
  | _, totalValue, totalQty, [] => (totalValue, totalQty)
  | remaining, totalValue, totalQty, l :: ls =>
    let take := min remaining l.quantity
    let tv := totalValue + take * l.price
    let tq := totalQty + take
    let rem := remaining - take
    if rem ≤ 0 then (tv, tq) else vwapGo rem tv tq ls

/-- MarketSimulator.calculateVWAP: walk the side best-first for the requested
quantity and divide accumulated value by accumulated quantity, returning 0
when nothing was taken. -/
def calculateVWAP (orderBook : OrderBook) (side : BookSide) (quantity : ℚ) : ℚ :=
  let res := vwapGo quantity 0 0 (sideLevels orderBook side)
  if res.2 > 0 then res.1 / res.2 else 0

/-- Volume-weighted average price over the whole of one side, the value the
spec calls the VWAP over all available quantity (0 for an empty side).  This
definition follows the words of the spec and is compared against
calculateVWAP. -/
def sideVWAPAll (orderBook : OrderBook) (side : BookSide) : ℚ :=
  let levels := sideLevels orderBook side
  let totalQty := (levels.map (fun l => l.quantity)).sum
  if totalQty > 0 then (levels.map (fun l => l.price * l.quantity)).sum / totalQty else 0

/-- Strict monotonicity of the ask ladder: prices strictly increase with
depth. -/
def asksStrictMono (book : OrderBook) : Prop :=
  List.Chain' (fun a b => a < b) (book.asks.map (fun l => l.price))

/-- Strict monotonicity of the bid ladder: prices strictly decrease with
depth. -/
def bidsStrictMono (book : OrderBook) : Prop :=
  List.Chain' (fun a b => b < a) (book.bids.map (fun l => l.price))

end SOR

namespace SOR

/-! Helper lemmas about the replay and VWAP walks. -/

/-- The replay loop emits nothing when the requested quantity is not
positive. -/
theorem simExecGo_nonpos {r : ℚ} (h : r ≤ 0) (acc : ℚ) (ls : List PriceLevel) :
    simExecGo r acc ls = ([], acc) := by
  cases ls with
  | nil => rfl
  | cons l ls => simp [simExecGo, h]

/-- The final cost accumulator of the replay loop is the initial accumulator
plus the price-weighted sum of the taken quantities it records. -/
theorem simExecGo_snd (r acc : ℚ) (ls : List PriceLevel) :
    (simExecGo r acc ls).2 =
      acc + ((simExecGo r acc ls).1.map (fun e => e.price * e.quantityTaken)).sum := by
  induction ls generalizing r acc with
  | nil => simp [simExecGo]
  | cons l ls ih =>
    by_cases h : r ≤ 0
    · simp [simExecGo, h]
    · simp only [simExecGo, if_neg h, List.map_cons, List.sum_cons]
      rw [ih]
      ring

/-- When the side cannot cover the request, the replay loop consumes every
level fully. -/
theorem simExecGo_full (ls : List PriceLevel) (r acc : ℚ)
    (hnn : ∀ l ∈ ls, 0 ≤ l.quantity)
    (hlt : ((ls.map (fun l => l.quantity)).sum) < r) :
    (simExecGo r acc ls).2 = acc + (ls.map (fun l => l.price * l.quantity)).sum ∧
    (simExecGo r acc ls).1.isEmpty = ls.isEmpty := by
  induction ls generalizing r acc with
  | nil => simp [simExecGo]
  | cons l ls ih =>
    have hl : 0 ≤ l.quantity := hnn l (List.mem_cons_self l ls)
    have hrest : 0 ≤ (ls.map (fun x => x.quantity)).sum := by
      apply List.sum_nonneg
      intro x hx
      rcases List.mem_map.mp hx with ⟨a, ha, rfl⟩
      exact hnn a (List.mem_cons_of_mem l ha)
    simp only [List.map_cons, List.sum_cons] at hlt
    have hr : ¬ r ≤ 0 := by
      intro h0
      have : (0:ℚ) ≤ l.quantity + (ls.map (fun x => x.quantity)).sum := by linarith
      linarith
    have htake : min r l.quantity = l.quantity := by
      apply min_eq_right
      linarith
    simp only [simExecGo, if_neg hr, htake]
    have hlt2 : (ls.map (fun x => x.quantity)).sum < r - l.quantity := by linarith
    have := ih (r - l.quantity) (acc + l.quantity * l.price)
      (fun x hx => hnn x (List.mem_cons_of_mem l hx)) hlt2
    constructor
    · simp only [this.1, List.map_cons, List.sum_cons]
      ring
    · simp

/-- CLAIM C8. Replay average-price divisor: simulateExecution divides the
price-weighted taken quantity by the requested quantityToFill, and when the
book side cannot cover the request the result is the diluted value obtained
by consuming the whole side and still dividing by the requested quantity. -/
theorem C8_replay_divisor (orderBook : OrderBook) (order : Order) (q : ℚ)
    (hq : 0 < q)
    (hnn : ∀ l ∈ sideLevels orderBook (consumingSide order.side), 0 ≤ l.quantity) :
    (simulateExecution orderBook order q).avgPrice =
      (((simulateExecution orderBook order q).levels.map
        (fun e => e.price * e.quantityTaken)).sum) / q ∧
    (getTotalLiquidity orderBook (consumingSide order.side) < q →
      (simulateExecution orderBook order q).avgPrice =
        (((sideLevels orderBook (consumingSide order.side)).map
          (fun l => l.price * l.quantity)).sum) / q) := by
  constructor
  · simp only [simulateExecution]
    by_cases he : (simExecGo q 0 (sideLevels orderBook (consumingSide order.side))).1.isEmpty
    · have h1 : (simExecGo q 0 (sideLevels orderBook (consumingSide order.side))).1 = [] :=
        List.isEmpty_iff.mp he
      simp [he, h1]
    · have := simExecGo_snd q 0 (sideLevels orderBook (consumingSide order.side))
      simp only [he, if_false, Bool.false_eq_true]
      rw [this]
      simp
  · intro hlt
    have hfull := simExecGo_full (sideLevels orderBook (consumingSide order.side)) q 0 hnn
      (by simpa [getTotalLiquidity] using hlt)
    simp only [simulateExecution]
    cases hls : sideLevels orderBook (consumingSide order.side) with
    | nil => simp [simExecGo, hls]
    | cons l ls =>
      rw [hls] at hfull
      have hne : (simExecGo q 0 (l :: ls)).1.isEmpty = false := by
        rw [hfull.2]
        simp
      simp only [hls, hne, Bool.false_eq_true, if_false]
      rw [hfull.1]
      simp

/-- Witness for C8 at a concrete book and order: one ask level (100, 10) and
a requested quantity 25 exceeding the available 10 gives the diluted average
1000 / 25. -/
def exBook8 : OrderBook := ⟨"A", "AAPL", [], [⟨100, 10, 1⟩], 0, 0, 0⟩

/-- Order used by the C8 and C9 witnesses. -/
def exOrder8 : Order := ⟨"o8", "AAPL", OrderSide.BID, OrderType.MARKET, none, 25, 0, 0⟩

/-- Witness applying C8 at a concrete input. -/
theorem C8_replay_divisor_witness :
    (simulateExecution exBook8 exOrder8 25).avgPrice =
      (((sideLevels exBook8 (consumingSide exOrder8.side)).map
        (fun l => l.price * l.quantity)).sum) / 25 :=
  (C8_replay_divisor exBook8 exOrder8 25 (by norm_num)
    (by
      intro l hl
      simp only [exBook8, exOrder8, consumingSide, sideLevels, List.mem_singleton] at hl
      subst hl
      norm_num)).2
    (by norm_num [getTotalLiquidity, exBook8, exOrder8, consumingSide, sideLevels])

/-! Helper lemmas for the VWAP walk. -/

/-- When the side cannot cover the request, the VWAP loop consumes every
level fully. -/
theorem vwapGo_full (ls : List PriceLevel) (r tv tq : ℚ)
    (hnn : ∀ l ∈ ls, 0 ≤ l.quantity)
    (hlt : ((ls.map (fun l => l.quantity)).sum) < r) :
    vwapGo r tv tq ls =
      (tv + (ls.map (fun l => l.price * l.quantity)).sum,
       tq + (ls.map (fun l => l.quantity)).sum) := by
  induction ls generalizing r tv tq with
  | nil => simp [vwapGo]
  | cons l ls ih =>
    have hl : 0 ≤ l.quantity := hnn l (List.mem_cons_self l ls)
    have hrest : 0 ≤ (ls.map (fun x => x.quantity)).sum := by
      apply List.sum_nonneg
      intro x hx
      rcases List.mem_map.mp hx with ⟨a, ha, rfl⟩
      exact hnn a (List.mem_cons_of_mem l ha)
    simp only [List.map_cons, List.sum_cons] at hlt
    have htake : min r l.quantity = l.quantity := by
      apply min_eq_right
      linarith
    have hrem : ¬ r - l.quantity ≤ 0 := by
      intro h0
      linarith
    simp only [vwapGo, htake]
    rw [if_neg hrem]
    have hlt2 : (ls.map (fun x => x.quantity)).sum < r - l.quantity := by linarith
    rw [ih (r - l.quantity) (tv + l.quantity * l.price) (tq + l.quantity)
      (fun x hx => hnn x (List.mem_cons_of_mem l hx)) hlt2]
    simp only [List.map_cons, List.sum_cons, Prod.mk.injEq]
    constructor
    · ring
    · ring

/-- CLAIM C9. VWAP boundary: requesting quantity 0 yields 0, and requesting
more than the total liquidity of the side yields the volume-weighted average
over all available quantity, with no failure. -/
theorem C9_vwap_boundary (orderBook : OrderBook) (side : BookSide) (q : ℚ)
    (hnn : ∀ l ∈ sideLevels orderBook side, 0 ≤ l.quantity) :
    calculateVWAP orderBook side 0 = 0 ∧
    (getTotalLiquidity orderBook side < q →
      calculateVWAP orderBook side q = sideVWAPAll orderBook side) := by
  constructor
  · simp only [calculateVWAP]
    cases hls : sideLevels orderBook side with
    | nil => simp [vwapGo]
    | cons l ls =>
      have hl : 0 ≤ l.quantity := by
        apply hnn
        rw [hls]
        exact List.mem_cons_self l ls
      have htake : min (0:ℚ) l.quantity = 0 := min_eq_left hl
      simp [vwapGo, htake]
  · intro hlt
    simp only [calculateVWAP, sideVWAPAll]
    rw [vwapGo_full (sideLevels orderBook side) q 0 0 hnn
      (by simpa [getTotalLiquidity] using hlt)]
    simp

/-- Witness applying C9 at a concrete input: the book with one ask level
(100, 10), quantity 0 and the over-liquidity quantity 25. -/
theorem C9_vwap_boundary_witness :
    calculateVWAP exBook8 BookSide.ask 0 = 0 ∧
    calculateVWAP exBook8 BookSide.ask 25 = sideVWAPAll exBook8 BookSide.ask :=
  ⟨(C9_vwap_boundary exBook8 BookSide.ask 25
      (by
        intro l hl
        simp only [exBook8, sideLevels, List.mem_singleton] at hl
        subst hl
        norm_num)).1,
   (C9_vwap_boundary exBook8 BookSide.ask 25
      (by
        intro l hl
        simp only [exBook8, sideLevels, List.mem_singleton] at hl
        subst hl
        norm_num)).2
     (by norm_num [getTotalLiquidity, exBook8, sideLevels])⟩

/-- CLAIM C10. The venue-count cap of generateRoutingPlan is disabled when
config.maxVenues is not positive: the decision list is never truncated; the
list is truncated to its first maxVenues decisions exactly when maxVenues is
positive and the decision count exceeds it. -/
theorem C10_maxVenues_cap (cfg : SORConfig) (ds : List RoutingDecision) :
    (cfg.maxVenues ≤ 0 → capMaxVenues cfg ds = ds) ∧
    (0 < cfg.maxVenues → (ds.length : ℤ) ≤ cfg.maxVenues → capMaxVenues cfg ds = ds) ∧
    (0 < cfg.maxVenues → cfg.maxVenues < (ds.length : ℤ) →
      capMaxVenues cfg ds = ds.take cfg.maxVenues.toNat) := by
  refine ⟨?_, ?_, ?_⟩
  · intro h
    simp only [capMaxVenues]
    rw [if_neg]
    intro hcon
    exact absurd hcon.1 (by omega)
  · intro h1 h2
    simp only [capMaxVenues]
    rw [if_neg]
    intro hcon
    exact absurd hcon.2 (by omega)
  · intro h1 h2
    simp only [capMaxVenues]
    rw [if_pos ⟨h1, h2⟩]

/-- Configuration with the cap disabled, used by the C10 witness. -/
def exCfg10 : SORConfig := ⟨RoutingStrategy.BEST_PRICE, 0, 0, true, false, true⟩

/-- Decision list used by the C10 witness. -/
def exDs10 : List RoutingDecision := [⟨"A", 1, 100, 0, 0⟩, ⟨"B", 2, 101, 0, 1⟩]

/-- Witness applying C10 at a concrete input: maxVenues 0 leaves a two-element
decision list untouched. -/
theorem C10_maxVenues_cap_witness : capMaxVenues exCfg10 exDs10 = exDs10 :=
  (C10_maxVenues_cap exCfg10 exDs10).1 (by norm_num [exCfg10])

end SOR

namespace SOR

/-! Engine inversion: facts recoverable from a successfully returned plan. -/

/-- Any plan returned by generateRoutingPlan was built by the best-price
strategy followed by post-processing: its fields are determined by the
surviving decision list. -/
theorem generateRoutingPlan_ok_inversion {order : Order} {venues : List Venue}
    {books : List (String × OrderBook)} {cfg : SORConfig} {now : ℚ} {plan : RoutingPlan}
    (hok : generateRoutingPlan order venues books cfg now = Except.ok plan) :
    ¬ order.quantity ≤ 0 ∧
    cfg.strategy = RoutingStrategy.BEST_PRICE ∧
    plan.decisions = sortByPriority (postDecisions order venues books cfg) ∧
    plan.totalQuantity = sumQuantities (postDecisions order venues books cfg) ∧
    plan.estimatedTotalCost = (calculateMetrics (postDecisions order venues books cfg) order).totalCost := by
  simp only [generateRoutingPlan] at hok
  split_ifs at hok with h1 h2 h3 h4 h5 h6 h7
  rw [Except.ok.injEq] at hok
  subst hok
  exact ⟨h1, h5, rfl, rfl, rfl⟩

end SOR

namespace SOR

/-! Claim C2: limit-price filtering. -/

/-- Venue used by the C2 counterexample. -/
def exVenue2 : Venue := ⟨"A", "NYSE", "NYSE", 0, 0, 0, true, ""⟩

/-- Book with a single bid at 100, used by the C2 counterexample. -/
def exBook2 : OrderBook := ⟨"A", "AAPL", [⟨100, 10, 1⟩], [], 0, 0, 0⟩

/-- Book map of the C2 counterexample. -/
def exBooks2 : List (String × OrderBook) := [("A", exBook2)]

/-- ASK LIMIT order with limit 101, above the only bid. -/
def exOrder2a : Order := ⟨"o2a", "AAPL", OrderSide.ASK, OrderType.LIMIT, some 101, 10, 0, 0⟩

/-- ASK LIMIT order with limit 99, below every available bid. -/
def exOrder2b : Order := ⟨"o2b", "AAPL", OrderSide.ASK, OrderType.LIMIT, some 99, 10, 0, 0⟩

/-- Configuration used by the C2 and C7 examples (the engine default). -/
def exCfg2 : SORConfig := ⟨RoutingStrategy.BEST_PRICE, 10, 0, true, false, true⟩

/-- Plan actually returned for the order with limit below every bid. -/
def exPlan2b : RoutingPlan :=
  ⟨"o2b", RoutingStrategy.BEST_PRICE, [⟨"A", 10, 100, 0, 0⟩], 10, 100, 1000, 1, 0⟩

/-- Evaluation of the engine on the C2b scenario. -/
theorem exPlan2b_ok :
    generateRoutingPlan exOrder2b [exVenue2] exBooks2 exCfg2 0 = Except.ok exPlan2b := by
  norm_num [generateRoutingPlan, postDecisions, filterVenues, lookupBook, minQtyFilter,
    capMaxVenues, executeBestPriceStrategy, gatherAllPriceLevels, sideLevels, consumingSide,
    walkLevels, sumQuantities, weightedPriceSum, sumFees, calculateMetrics, sortByPriority,
    List.insertionSort, List.orderedInsert, min_def, exOrder2b, exVenue2, exBooks2, exBook2,
    exCfg2, exPlan2b]

/-- CLAIM C2 counterexample.  The code never filters levels against the limit
price: the ASK order with limit 101 is allocated at the bid price 100, which
is worse than its limit, and the ASK order with limit 99 (below every
available bid) allocates the full 10 and returns a plan instead of raising
UnallocatableOrder. -/
theorem C2_counterexample :
    (executeBestPriceStrategy exOrder2a [exVenue2] exBooks2 = [⟨"A", 10, 100, 0, 0⟩] ∧
      exOrder2a.price = some 101 ∧ (100 : ℚ) < 101) ∧
    (generateRoutingPlan exOrder2b [exVenue2] exBooks2 exCfg2 0 = Except.ok exPlan2b ∧
      exPlan2b.totalQuantity = 10) := by
  refine ⟨⟨?_, rfl, by norm_num⟩, exPlan2b_ok, rfl⟩
  norm_num [executeBestPriceStrategy, gatherAllPriceLevels, sideLevels, consumingSide,
    walkLevels, lookupBook, List.insertionSort, List.orderedInsert, min_def, exOrder2a,
    exVenue2, exBooks2, exBook2]

/-- CLAIM C2 amended: the best-price allocation ignores the limit price
entirely - its output is invariant under any change of order.price - so no
level is ever discarded against the limit and an ASK order with a limit below
every bid is routed exactly like a market order. -/
theorem C2_amended (order : Order) (venues : List Venue)
    (books : List (String × OrderBook)) (p : Option ℚ) :
    executeBestPriceStrategy { order with price := p } venues books =
      executeBestPriceStrategy order venues books := rfl

/-! Claim C7: fee computation. -/

/-- Every decision emitted by the greedy walk carries zero fees. -/
theorem walkLevels_fees (ls : List VenuePriceLevel) :
    ∀ r p d, d ∈ walkLevels r p ls → d.expectedFees = 0 := by
  induction ls with
  | nil => intro r p d hd; simp [walkLevels] at hd
  | cons l ls ih =>
    intro r p d hd
    by_cases hr : r ≤ 0
    · simp [walkLevels, hr] at hd
    · simp only [walkLevels, if_neg hr, List.mem_cons] at hd
      rcases hd with rfl | hd
      · rfl
      · exact ih _ _ _ hd

/-- Every decision emitted by the best-price strategy carries zero fees. -/
theorem executeBestPriceStrategy_fees (order : Order) (venues : List Venue)
    (books : List (String × OrderBook)) :
    ∀ d ∈ executeBestPriceStrategy order venues books, d.expectedFees = 0 := by
  intro d hd
  simp only [executeBestPriceStrategy] at hd
  by_cases he : (gatherAllPriceLevels venues books (consumingSide order.side)).isEmpty
  · simp [he] at hd
  · simp only [he, Bool.false_eq_true, if_false] at hd
    exact walkLevels_fees _ _ _ _ hd

/-- Every decision surviving the post-processing carries zero fees. -/
theorem postDecisions_fees (order : Order) (venues : List Venue)
    (books : List (String × OrderBook)) (cfg : SORConfig) :
    ∀ d ∈ postDecisions order venues books cfg, d.expectedFees = 0 := by
  intro d hd
  simp only [postDecisions, capMaxVenues, minQtyFilter] at hd
  have hd2 : d ∈ executeBestPriceStrategy order (filterVenues venues books) books := by
    split_ifs at hd with hc1 hc2 hc3
    · exact List.mem_filter.mp (List.mem_of_mem_take hd) |>.1
    · exact List.mem_filter.mp hd |>.1
    · exact List.mem_of_mem_take hd
    · exact hd
  exact executeBestPriceStrategy_fees _ _ _ d hd2

/-- Venue with a nonzero taker fee, used by the C7 counterexample. -/
def exVenue7 : Venue := ⟨"A", "NYSE", "NYSE", 0, 1/1000, 0, true, ""⟩

/-- Book with one ask level (100, 10), used by the C7 counterexample. -/
def exBook7 : OrderBook := ⟨"A", "AAPL", [], [⟨100, 10, 1⟩], 0, 0, 0⟩

/-- Market BID order for 10, used by the C7 counterexample. -/
def exOrder7 : Order := ⟨"o7", "AAPL", OrderSide.BID, OrderType.MARKET, none, 10, 0, 0⟩

/-- Plan actually returned on the C7 scenario: fees are 0, not
price x quantity x takerFee. -/
def exPlan7 : RoutingPlan :=
  ⟨"o7", RoutingStrategy.BEST_PRICE, [⟨"A", 10, 100, 0, 0⟩], 10, 100, 1000, 0, 0⟩

/-- Evaluation of the engine on the C7 scenario. -/
theorem exPlan7_ok :
    generateRoutingPlan exOrder7 [exVenue7] [("A", exBook7)] exCfg2 0 = Except.ok exPlan7 := by
  norm_num [generateRoutingPlan, postDecisions, filterVenues, lookupBook, minQtyFilter,
    capMaxVenues, executeBestPriceStrategy, gatherAllPriceLevels, sideLevels, consumingSide,
    walkLevels, sumQuantities, weightedPriceSum, sumFees, calculateMetrics, sortByPriority,
    List.insertionSort, List.orderedInsert, min_def, exOrder7, exVenue7, exBook7,
    exCfg2, exPlan7]

/-- CLAIM C7 counterexample.  On a venue with takerFee 1/1000 the plan's only
decision carries expectedFees 0, not expectedPrice x quantity x takerFee = 1;
the claimed fee formula fails on every decision with a nonzero price,
quantity and fee. -/
theorem C7_counterexample :
    generateRoutingPlan exOrder7 [exVenue7] [("A", exBook7)] exCfg2 0 = Except.ok exPlan7 ∧
    exPlan7.decisions.map (fun d => d.expectedFees) = [0] ∧
    exPlan7.decisions.map (fun d => d.expectedPrice * d.quantity * exVenue7.takerFee) = [1] ∧
    (0 : ℚ) ≠ 1 := by
  refine ⟨exPlan7_ok, rfl, ?_, by norm_num⟩
  norm_num [exPlan7, exVenue7]

/-- CLAIM C7 amended: in every plan returned by generateRoutingPlan the
best-price strategy charges no fees - every surviving decision has
expectedFees 0 - and estimatedTotalCost is exactly the quantity-weighted
price sum (the fee sum being zero). -/
theorem C7_amended (order : Order) (venues : List Venue)
    (books : List (String × OrderBook)) (cfg : SORConfig) (now : ℚ) (plan : RoutingPlan)
    (hok : generateRoutingPlan order venues books cfg now = Except.ok plan) :
    (∀ d ∈ plan.decisions, d.expectedFees = 0) ∧
    plan.estimatedTotalCost = weightedPriceSum plan.decisions := by
  obtain ⟨h1, h5, hdec, htot, hcost⟩ := generateRoutingPlan_ok_inversion hok
  have hperm : List.Perm (sortByPriority (postDecisions order venues books cfg))
      (postDecisions order venues books cfg) :=
    List.perm_insertionSort _ _
  constructor
  · intro d hd
    rw [hdec] at hd
    exact postDecisions_fees order venues books cfg d (hperm.subset hd)
  · rw [hcost, hdec]
    simp only [calculateMetrics]
    by_cases he : (postDecisions order venues books cfg).isEmpty
    · have h0 : postDecisions order venues books cfg = [] := List.isEmpty_iff.mp he
      simp [h0, weightedPriceSum, sortByPriority, List.insertionSort]
    · simp only [he, Bool.false_eq_true, if_false]
      have hfees : sumFees (postDecisions order venues books cfg) = 0 := by
        apply List.sum_eq_zero
        intro x hx
        rcases List.mem_map.mp hx with ⟨d, hd, rfl⟩
        exact postDecisions_fees order venues books cfg d hd
      have hwps : weightedPriceSum (sortByPriority (postDecisions order venues books cfg)) =
          weightedPriceSum (postDecisions order venues books cfg) :=
        (hperm.map _).sum_eq
      rw [hwps, hfees, add_zero]

/-- Witness applying the amended C7 at the concrete C7 scenario. -/
theorem C7_amended_witness :
    (∀ d ∈ exPlan7.decisions, d.expectedFees = 0) ∧
    exPlan7.estimatedTotalCost = weightedPriceSum exPlan7.decisions :=
  C7_amended exOrder7 [exVenue7] [("A", exBook7)] exCfg2 0 exPlan7 exPlan7_ok

end SOR

namespace SOR

/-! Claim C1: replay consistency. -/

/-- Venue A of the C1 counterexample. -/
def exVenue1A : Venue := ⟨"A", "A", "A", 0, 0, 0, true, ""⟩

/-- Venue B of the C1 counterexample. -/
def exVenue1B : Venue := ⟨"B", "B", "B", 0, 0, 0, true, ""⟩

/-- Book of venue A: asks (100, 10) then (101, 10). -/
def exBook1A : OrderBook := ⟨"A", "AAPL", [], [⟨100, 10, 1⟩, ⟨101, 10, 1⟩], 0, 0, 0⟩

/-- Book of venue B: one ask (100.5, 10). -/
def exBook1B : OrderBook := ⟨"B", "AAPL", [], [⟨201/2, 10, 1⟩], 0, 0, 0⟩

/-- Book map of the C1 counterexample. -/
def exBooks1 : List (String × OrderBook) := [("A", exBook1A), ("B", exBook1B)]

/-- Market BID order for 25, used by the C1 counterexample. -/
def exOrder1 : Order := ⟨"o1", "AAPL", OrderSide.BID, OrderType.MARKET, none, 25, 0, 0⟩

/-- CLAIM C1 counterexample.  The plan contains the decision (A, 5, 101)
taken at the second price level of venue A, but simulateExecution over the
same unmutated book of venue A and the same quantity 5 walks from the top of
the book and returns avgPrice 100, which is not within 1e-6 relative
tolerance of the expectedPrice 101. -/
theorem C1_counterexample :
    executeBestPriceStrategy exOrder1 [exVenue1A, exVenue1B] exBooks1 =
      [⟨"A", 10, 100, 0, 0⟩, ⟨"B", 10, 201/2, 0, 1⟩, ⟨"A", 5, 101, 0, 2⟩] ∧
    lookupBook "A" exBooks1 = some exBook1A ∧
    (simulateExecution exBook1A exOrder1 5).avgPrice = 100 ∧
    ¬ |(simulateExecution exBook1A exOrder1 5).avgPrice - 101| ≤ 1 / 1000000 * 101 := by
  have havg : (simulateExecution exBook1A exOrder1 5).avgPrice = 100 := by
    norm_num [simulateExecution, simExecGo, sideLevels, consumingSide, exBook1A, exOrder1,
      min_def]
  refine ⟨?_, rfl, havg, ?_⟩
  · norm_num [executeBestPriceStrategy, gatherAllPriceLevels, sideLevels, consumingSide,
      walkLevels, lookupBook, List.insertionSort, List.orderedInsert, min_def, exOrder1,
      exVenue1A, exVenue1B, exBooks1, exBook1A, exBook1B]
  · rw [havg]
    norm_num

/-- CLAIM C1 amended: replay consistency holds exactly for the decisions
taken at the top of their venue's book: if a decision of the best-price plan
has the price of the first consuming-side level of its venue's book and its
quantity fits inside that level - as always happens for the first decision
cut from each venue - then simulateExecution over the same unmutated book and
the same quantity reproduces avgPrice equal to expectedPrice exactly.
Decisions cut from deeper levels replay from the top of the book and diverge,
as the counterexample shows. -/
theorem C1_amended (order : Order) (venues : List Venue)
    (books : List (String × OrderBook)) (d : RoutingDecision)
    (hd : d ∈ executeBestPriceStrategy order venues books)
    (book : OrderBook) (hb : lookupBook d.venueId books = some book)
    (l : PriceLevel) (ls : List PriceLevel)
    (hside : sideLevels book (consumingSide order.side) = l :: ls)
    (hp : d.expectedPrice = l.price) (hql : d.quantity ≤ l.quantity)
    (hq0 : 0 < d.quantity) :
    (simulateExecution book order d.quantity).avgPrice = d.expectedPrice := by
  have hr : ¬ d.quantity ≤ 0 := not_le.mpr hq0
  have htake : min d.quantity l.quantity = d.quantity := min_eq_left hql
  have hrec : simExecGo (d.quantity - d.quantity) (0 + d.quantity * l.price) ls =
      ([], 0 + d.quantity * l.price) := simExecGo_nonpos (by simp) _ _
  simp only [simulateExecution, hside, simExecGo, if_neg hr, htake, hrec]
  simp only [List.isEmpty_cons, Bool.false_eq_true, if_false, zero_add]
  rw [hp]
  exact mul_div_cancel_left₀ l.price (ne_of_gt hq0)

/-- Venue of the C1 witness. -/
def exVenue1W : Venue := ⟨"W", "W", "W", 0, 0, 0, true, ""⟩

/-- Book of the C1 witness: a single ask level (100, 10). -/
def exBook1W : OrderBook := ⟨"W", "AAPL", [], [⟨100, 10, 1⟩], 0, 0, 0⟩

/-- Book map of the C1 witness. -/
def exBooks1W : List (String × OrderBook) := [("W", exBook1W)]

/-- Market BID order for 5, used by the C1 witness. -/
def exOrder1W : Order := ⟨"ow", "AAPL", OrderSide.BID, OrderType.MARKET, none, 5, 0, 0⟩

/-- Decision cut from the top level of the witness book. -/
def exDec1W : RoutingDecision := ⟨"W", 5, 100, 0, 0⟩

/-- Witness applying the amended C1 at a concrete top-level decision. -/
theorem C1_amended_witness :
    (simulateExecution exBook1W exOrder1W exDec1W.quantity).avgPrice =
      exDec1W.expectedPrice :=
  C1_amended exOrder1W [exVenue1W] exBooks1W exDec1W
    (by
      norm_num [executeBestPriceStrategy, gatherAllPriceLevels, sideLevels, consumingSide,
        walkLevels, lookupBook, List.insertionSort, List.orderedInsert, min_def, exOrder1W,
        exVenue1W, exBooks1W, exBook1W, exDec1W])
    exBook1W rfl ⟨100, 10, 1⟩ []
    rfl rfl (by norm_num [exDec1W]) (by norm_num [exDec1W])

end SOR

namespace SOR

/-! Claim C5: price-priority law. -/

/-- Every decision of the greedy walk takes its expected price from some
input level. -/
theorem walkLevels_mem_price (ls : List VenuePriceLevel) :
    ∀ r p d, d ∈ walkLevels r p ls → ∃ l ∈ ls, d.expectedPrice = l.price := by
  induction ls with
  | nil => intro r p d hd; simp [walkLevels] at hd
  | cons l ls ih =>
    intro r p d hd
    by_cases hr : r ≤ 0
    · simp [walkLevels, hr] at hd
    · simp only [walkLevels, if_neg hr, List.mem_cons] at hd
      rcases hd with rfl | hd
      · exact ⟨l, List.mem_cons_self l ls, rfl⟩
      · rcases ih _ _ _ hd with ⟨l2, hl2, he⟩
        exact ⟨l2, List.mem_cons_of_mem l hl2, he⟩

/-- The greedy walk transports any pairwise price relation of its input list
to the expected prices of its output decisions. -/
theorem walkLevels_pairwise {R : ℚ → ℚ → Prop} (ls : List VenuePriceLevel)
    (h : List.Pairwise (fun a b => R a.price b.price) ls) :
    ∀ r p, List.Pairwise (fun d e => R d.expectedPrice e.expectedPrice) (walkLevels r p ls) := by
  induction ls with
  | nil => intro r p; simp [walkLevels]
  | cons l ls ih =>
    intro r p
    by_cases hr : r ≤ 0
    · simp [walkLevels, hr]
    · simp only [walkLevels, if_neg hr]
      refine List.Pairwise.cons ?_ (ih h.of_cons _ _)
      intro e he
      rcases walkLevels_mem_price ls _ _ e he with ⟨l2, hl2, hprice⟩
      rw [hprice]
      exact (List.pairwise_cons.mp h).1 l2 hl2

/-- CLAIM C5. Price-priority law: in walk order (which is ascending priority
order), the expected prices of the decisions of the best-price strategy are
non-decreasing for a BID order and non-increasing for an ASK order. -/
theorem C5_price_priority (order : Order) (venues : List Venue)
    (books : List (String × OrderBook)) :
    (order.side = OrderSide.BID →
      List.Chain' (fun d e => d.expectedPrice ≤ e.expectedPrice)
        (executeBestPriceStrategy order venues books)) ∧
    (order.side = OrderSide.ASK →
      List.Chain' (fun d e => e.expectedPrice ≤ d.expectedPrice)
        (executeBestPriceStrategy order venues books)) := by
  constructor
  · intro hside
    simp only [executeBestPriceStrategy, hside]
    rw [if_pos trivial]
    split
    · simp
    · apply List.Pairwise.chain'
      apply walkLevels_pairwise (R := fun a b => a ≤ b)
      haveI : IsTotal VenuePriceLevel (fun a b : VenuePriceLevel => a.price ≤ b.price) :=
        ⟨fun a b => le_total a.price b.price⟩
      haveI : IsTrans VenuePriceLevel (fun a b : VenuePriceLevel => a.price ≤ b.price) :=
        ⟨fun _ _ _ hab hbc => le_trans hab hbc⟩
      exact List.sorted_insertionSort (fun a b : VenuePriceLevel => a.price ≤ b.price) _
  · intro hside
    simp only [executeBestPriceStrategy, hside]
    rw [if_neg (fun h => OrderSide.noConfusion h)]
    split
    · simp
    · apply List.Pairwise.chain'
      apply walkLevels_pairwise (R := fun a b => b ≤ a)
      haveI : IsTotal VenuePriceLevel (fun a b : VenuePriceLevel => b.price ≤ a.price) :=
        ⟨fun a b => le_total b.price a.price⟩
      haveI : IsTrans VenuePriceLevel (fun a b : VenuePriceLevel => b.price ≤ a.price) :=
        ⟨fun _ _ _ hab hbc => le_trans hbc hab⟩
      exact List.sorted_insertionSort (fun a b : VenuePriceLevel => b.price ≤ a.price) _

/-- Witness applying C5 at the concrete two-venue BID scenario of C1. -/
theorem C5_price_priority_witness :
    List.Chain' (fun d e => d.expectedPrice ≤ e.expectedPrice)
      (executeBestPriceStrategy exOrder1 [exVenue1A, exVenue1B] exBooks1) :=
  (C5_price_priority exOrder1 [exVenue1A, exVenue1B] exBooks1).1 rfl

end SOR

namespace SOR

/-! Claim C6: InsufficientLiquidity error. -/

/-- CLAIM C6. When partial fills are disallowed and the total allocated
quantity is positive but strictly below the requested quantity, the engine
raises InsufficientLiquidity carrying the requested and the available
quantities, and returns no plan. -/
theorem C6_insufficient_liquidity (order : Order) (venues : List Venue)
    (books : List (String × OrderBook)) (cfg : SORConfig) (now : ℚ)
    (h1 : 0 < order.quantity) (h2 : venues ≠ []) (h3 : books ≠ [])
    (h4 : filterVenues venues books ≠ [])
    (h5 : cfg.strategy = RoutingStrategy.BEST_PRICE)
    (h6 : cfg.allowPartialFills = false)
    (h7 : 0 < sumQuantities (postDecisions order venues books cfg))
    (h8 : sumQuantities (postDecisions order venues books cfg) < order.quantity) :
    generateRoutingPlan order venues books cfg now =
      Except.error (SORError.insufficientLiquidity order.quantity
        (sumQuantities (postDecisions order venues books cfg))) := by
  simp only [generateRoutingPlan]
  rw [if_neg (not_le.mpr h1),
      if_neg (fun h => h2 (List.isEmpty_iff.mp h)),
      if_neg (fun h => h3 (List.isEmpty_iff.mp h)),
      if_neg (fun h => h4 (List.isEmpty_iff.mp h)),
      if_pos h5,
      if_neg (ne_of_gt h7),
      if_pos ⟨h6, h8⟩]

/-- Venue used by the C6 witness. -/
def exVenue6 : Venue := ⟨"A", "NYSE", "NYSE", 0, 0, 0, true, ""⟩

/-- Book with 6000 available on the ask side, used by the C6 witness. -/
def exBook6 : OrderBook := ⟨"A", "AAPL", [], [⟨100, 6000, 1⟩], 0, 0, 0⟩

/-- Market BID order for 10000, used by the C6 witness. -/
def exOrder6 : Order := ⟨"o6", "AAPL", OrderSide.BID, OrderType.MARKET, none, 10000, 0, 0⟩

/-- Configuration forbidding partial fills, used by the C6 witness. -/
def exCfg6 : SORConfig := ⟨RoutingStrategy.BEST_PRICE, 10, 0, true, false, false⟩

/-- Witness applying C6 at the spec scenario: requested 10000, available 6000,
partial fills disallowed. -/
theorem C6_insufficient_liquidity_witness :
    generateRoutingPlan exOrder6 [exVenue6] [("A", exBook6)] exCfg6 0 =
      Except.error (SORError.insufficientLiquidity 10000 6000) := by
  have h := C6_insufficient_liquidity exOrder6 [exVenue6] [("A", exBook6)] exCfg6 0
    (by norm_num [exOrder6])
    (by simp)
    (by simp)
    (by simp [filterVenues, exVenue6, lookupBook])
    rfl rfl
    (by
      norm_num [postDecisions, filterVenues, lookupBook, minQtyFilter, capMaxVenues,
        executeBestPriceStrategy, gatherAllPriceLevels, sideLevels, consumingSide, walkLevels,
        sumQuantities, List.insertionSort, List.orderedInsert, min_def, exOrder6, exVenue6,
        exBook6, exCfg6])
    (by
      norm_num [postDecisions, filterVenues, lookupBook, minQtyFilter, capMaxVenues,
        executeBestPriceStrategy, gatherAllPriceLevels, sideLevels, consumingSide, walkLevels,
        sumQuantities, List.insertionSort, List.orderedInsert, min_def, exOrder6, exVenue6,
        exBook6, exCfg6])
  rw [h]
  norm_num [postDecisions, filterVenues, lookupBook, minQtyFilter, capMaxVenues,
    executeBestPriceStrategy, gatherAllPriceLevels, sideLevels, consumingSide, walkLevels,
    sumQuantities, List.insertionSort, List.orderedInsert, min_def, exOrder6, exVenue6,
    exBook6, exCfg6]

end SOR

namespace SOR

/-! Claim C4: allocation conservation. -/

/-- The greedy walk emits nothing when the remaining quantity is not
positive. -/
theorem walkLevels_nonpos {r : ℚ} (h : r ≤ 0) (p : ℕ) (ls : List VenuePriceLevel) :
    walkLevels r p ls = [] := by
  cases ls with
  | nil => rfl
  | cons l ls => simp [walkLevels, h]

/-- The greedy walk never allocates more than the remaining quantity. -/
theorem walkLevels_sum_le (ls : List VenuePriceLevel) :
    ∀ r p, 0 ≤ r → sumQuantities (walkLevels r p ls) ≤ r := by
  induction ls with
  | nil =>
    intro r p hr
    simpa [walkLevels, sumQuantities] using hr
  | cons l ls ih =>
    intro r p hr
    by_cases h : r ≤ 0
    · simpa [walkLevels, h, sumQuantities] using hr
    · simp only [walkLevels, if_neg h, sumQuantities, List.map_cons, List.sum_cons]
      have hmin : min r l.quantity ≤ r := min_le_left r l.quantity
      have h2 : 0 ≤ r - min r l.quantity := by linarith
      have := ih (r - min r l.quantity) (p + 1) h2
      simp only [sumQuantities] at this
      linarith

/-- When the input levels hold enough quantity, the greedy walk allocates
exactly the remaining quantity. -/
theorem walkLevels_sum_eq (ls : List VenuePriceLevel) :
    ∀ r p, 0 ≤ r → (∀ l ∈ ls, 0 ≤ l.quantity) →
      r ≤ (ls.map (fun l => l.quantity)).sum →
      sumQuantities (walkLevels r p ls) = r := by
  induction ls with
  | nil =>
    intro r p hr hnn hle
    simp only [List.map_nil, List.sum_nil] at hle
    have : r = 0 := le_antisymm hle hr
    simp [walkLevels, sumQuantities, this]
  | cons l ls ih =>
    intro r p hr hnn hle
    by_cases h : r ≤ 0
    · have hr0 : r = 0 := le_antisymm h hr
      simp [walkLevels, h, sumQuantities, hr0]
    · simp only [walkLevels, if_neg h, sumQuantities, List.map_cons, List.sum_cons]
      by_cases hm : r ≤ l.quantity
      · have hmin : min r l.quantity = r := min_eq_left hm
        rw [hmin, walkLevels_nonpos (by linarith) (p + 1) ls]
        simp
      · have hql : l.quantity ≤ r := le_of_not_le hm
        have hmin : min r l.quantity = l.quantity := min_eq_right hql
        rw [hmin]
        have hnn2 : ∀ x ∈ ls, 0 ≤ x.quantity := fun x hx => hnn x (List.mem_cons_of_mem l hx)
        have hle2 : r - l.quantity ≤ (ls.map (fun x => x.quantity)).sum := by
          simp only [List.map_cons, List.sum_cons] at hle
          linarith
        have h0 : 0 ≤ r - l.quantity := by linarith
        have := ih (r - l.quantity) (p + 1) h0 hnn2 hle2
        simp only [sumQuantities] at this
        rw [this]
        ring

/-- All decisions of the greedy walk have nonnegative quantity when the input
levels do. -/
theorem walkLevels_qty_nonneg (ls : List VenuePriceLevel)
    (hnn : ∀ l ∈ ls, 0 ≤ l.quantity) :
    ∀ r p d, d ∈ walkLevels r p ls → 0 ≤ d.quantity := by
  induction ls with
  | nil => intro r p d hd; simp [walkLevels] at hd
  | cons l ls ih =>
    intro r p d hd
    by_cases h : r ≤ 0
    · simp [walkLevels, h] at hd
    · simp only [walkLevels, if_neg h, List.mem_cons] at hd
      rcases hd with rfl | hd
      · exact le_min (le_of_lt (not_le.mp h)) (hnn l (List.mem_cons_self l ls))
      · exact ih (fun x hx => hnn x (List.mem_cons_of_mem l hx)) _ _ _ hd

/-- Quantities gathered from the books are nonnegative when every book level
is. -/
theorem gather_quantity_nonneg (venues : List Venue) (books : List (String × OrderBook))
    (side : BookSide)
    (hnn : ∀ pr ∈ books, ∀ l ∈ pr.2.bids ++ pr.2.asks, 0 ≤ l.quantity) :
    ∀ vl ∈ gatherAllPriceLevels venues books side, 0 ≤ vl.quantity := by
  intro vl hvl
  simp only [gatherAllPriceLevels, List.mem_flatMap] at hvl
  rcases hvl with ⟨v, _, hin⟩
  by_cases ha : v.active
  · rw [if_pos ha] at hin
    cases hb : lookupBook v.id books with
    | none => rw [hb] at hin; simp at hin
    | some ob =>
      rw [hb] at hin
      rcases List.mem_map.mp hin with ⟨l, hl, rfl⟩
      simp only [lookupBook] at hb
      rcases Option.map_eq_some.mp hb with ⟨pr, hfind, hsnd⟩
      have hmem : pr ∈ books := List.mem_of_find?_eq_some hfind
      have hlev : l ∈ pr.2.bids ++ pr.2.asks := by
        rw [hsnd]
        cases side with
        | bid => exact List.mem_append_left _ (by simpa [sideLevels] using hl)
        | ask => exact List.mem_append_right _ (by simpa [sideLevels] using hl)
      exact hnn pr hmem l hlev
  · rw [if_neg ha] at hin
    simp at hin

/-- Sum comparison along a sublist of decisions with nonnegative
quantities. -/
theorem sumQuantities_sublist_le {ds1 ds2 : List RoutingDecision}
    (h : ds1.Sublist ds2) (hnn : ∀ d ∈ ds2, 0 ≤ d.quantity) :
    sumQuantities ds1 ≤ sumQuantities ds2 := by
  apply List.Sublist.sum_le_sum (h.map (fun d => d.quantity))
  intro a ha
  rcases List.mem_map.mp ha with ⟨d, hd, rfl⟩
  exact hnn d hd

/-- The post-processed decision list is a sublist of the raw strategy
output. -/
theorem postDecisions_sublist (order : Order) (venues : List Venue)
    (books : List (String × OrderBook)) (cfg : SORConfig) :
    (postDecisions order venues books cfg).Sublist
      (executeBestPriceStrategy order (filterVenues venues books) books) := by
  simp only [postDecisions, capMaxVenues, minQtyFilter]
  split_ifs with hc1 hc2 hc3
  · exact (List.take_sublist _ _).trans (List.filter_sublist _)
  · exact List.filter_sublist _
  · exact List.take_sublist _ _
  · exact List.Sublist.refl _

/-- All decisions of the strategy have nonnegative quantity when every book
level does. -/
theorem executeBestPriceStrategy_qty_nonneg (order : Order) (venues : List Venue)
    (books : List (String × OrderBook))
    (hnn : ∀ pr ∈ books, ∀ l ∈ pr.2.bids ++ pr.2.asks, 0 ≤ l.quantity) :
    ∀ d ∈ executeBestPriceStrategy order venues books, 0 ≤ d.quantity := by
  intro d hd
  simp only [executeBestPriceStrategy] at hd
  by_cases he : (gatherAllPriceLevels venues books (consumingSide order.side)).isEmpty
  · simp [he] at hd
  · simp only [he, Bool.false_eq_true, if_false] at hd
    have hgn := gather_quantity_nonneg venues books (consumingSide order.side) hnn
    by_cases hb : order.side = OrderSide.BID
    · rw [if_pos hb] at hd
      refine walkLevels_qty_nonneg _ ?_ _ _ d hd
      intro l hl
      exact hgn l ((List.perm_insertionSort _ _).subset hl)
    · rw [if_neg hb] at hd
      refine walkLevels_qty_nonneg _ ?_ _ _ d hd
      intro l hl
      exact hgn l ((List.perm_insertionSort _ _).subset hl)

/-- The strategy never allocates more than the order quantity. -/
theorem executeBestPriceStrategy_sum_le (order : Order) (venues : List Venue)
    (books : List (String × OrderBook)) (hq : 0 ≤ order.quantity) :
    sumQuantities (executeBestPriceStrategy order venues books) ≤ order.quantity := by
  simp only [executeBestPriceStrategy]
  split
  · simpa [sumQuantities] using hq
  · split
    · exact walkLevels_sum_le _ _ _ hq
    · exact walkLevels_sum_le _ _ _ hq

/-- Total consuming-side liquidity visible to the engine: the quantity sum of
the levels gathered from the eligible venues. -/
def eligibleLiquidity (order : Order) (venues : List Venue)
    (books : List (String × OrderBook)) : ℚ :=
  ((gatherAllPriceLevels (filterVenues venues books) books
    (consumingSide order.side)).map (fun l => l.quantity)).sum

/-- When the gathered liquidity covers the order, the strategy allocates
exactly the order quantity. -/
theorem executeBestPriceStrategy_sum_eq (order : Order) (venues : List Venue)
    (books : List (String × OrderBook)) (hq : 0 ≤ order.quantity)
    (hnn : ∀ pr ∈ books, ∀ l ∈ pr.2.bids ++ pr.2.asks, 0 ≤ l.quantity)
    (hliq : order.quantity ≤
      ((gatherAllPriceLevels venues books (consumingSide order.side)).map
        (fun l => l.quantity)).sum) :
    sumQuantities (executeBestPriceStrategy order venues books) = order.quantity := by
  have hgn := gather_quantity_nonneg venues books (consumingSide order.side) hnn
  simp only [executeBestPriceStrategy]
  split
  · rename_i he
    rw [List.isEmpty_iff.mp he] at hliq
    simp only [List.map_nil, List.sum_nil] at hliq
    have : order.quantity = 0 := le_antisymm hliq hq
    simp [sumQuantities, this]
  · split
    · apply walkLevels_sum_eq _ _ _ hq
      · intro l hl
        exact hgn l ((List.perm_insertionSort _ _).subset hl)
      · rw [List.Perm.sum_eq (List.Perm.map (fun l : VenuePriceLevel => l.quantity)
          (List.perm_insertionSort (fun a b : VenuePriceLevel => a.price ≤ b.price) _))]
        exact hliq
    · apply walkLevels_sum_eq _ _ _ hq
      · intro l hl
        exact hgn l ((List.perm_insertionSort _ _).subset hl)
      · rw [List.Perm.sum_eq (List.Perm.map (fun l : VenuePriceLevel => l.quantity)
          (List.perm_insertionSort (fun a b : VenuePriceLevel => b.price ≤ a.price) _))]
        exact hliq

/-- CLAIM C4. Allocation conservation: every plan returned by
generateRoutingPlan allocates at most order.quantity in total, and exactly
order.quantity when the eligible consuming-side liquidity covers the order
and the post-processing steps are disabled (no positive minQuantityPerVenue,
no positive maxVenues cap). -/
theorem C4_allocation_conservation (order : Order) (venues : List Venue)
    (books : List (String × OrderBook)) (cfg : SORConfig) (now : ℚ) (plan : RoutingPlan)
    (hnn : ∀ pr ∈ books, ∀ l ∈ pr.2.bids ++ pr.2.asks, 0 ≤ l.quantity)
    (hok : generateRoutingPlan order venues books cfg now = Except.ok plan) :
    plan.totalQuantity ≤ order.quantity ∧
    (cfg.minQuantityPerVenue ≤ 0 → cfg.maxVenues ≤ 0 →
      order.quantity ≤ eligibleLiquidity order venues books →
      plan.totalQuantity = order.quantity) := by
  obtain ⟨h1, _, _, htot, _⟩ := generateRoutingPlan_ok_inversion hok
  have hq : 0 ≤ order.quantity := le_of_lt (not_le.mp h1)
  have hsnn : ∀ d ∈ executeBestPriceStrategy order (filterVenues venues books) books,
      0 ≤ d.quantity :=
    executeBestPriceStrategy_qty_nonneg order (filterVenues venues books) books hnn
  constructor
  · rw [htot]
    calc sumQuantities (postDecisions order venues books cfg)
        ≤ sumQuantities (executeBestPriceStrategy order (filterVenues venues books) books) :=
          sumQuantities_sublist_le (postDecisions_sublist order venues books cfg) hsnn
      _ ≤ order.quantity :=
          executeBestPriceStrategy_sum_le order (filterVenues venues books) books hq
  · intro hminq hmaxv hliq
    have hfil : minQtyFilter cfg
        (executeBestPriceStrategy order (filterVenues venues books) books) =
        executeBestPriceStrategy order (filterVenues venues books) books := by
      simp only [minQtyFilter]
      rw [if_neg (not_lt.mpr hminq)]
    have hcap : capMaxVenues cfg
        (executeBestPriceStrategy order (filterVenues venues books) books) =
        executeBestPriceStrategy order (filterVenues venues books) books := by
      simp only [capMaxVenues]
      rw [if_neg]
      intro hc
      exact absurd hc.1 (not_lt.mpr hmaxv)
    rw [htot]
    simp only [postDecisions, hfil, hcap]
    exact executeBestPriceStrategy_sum_eq order (filterVenues venues books) books hq hnn hliq

/-- Configuration with all post-processing disabled, used by the C4
witness. -/
def exCfg4 : SORConfig := ⟨RoutingStrategy.BEST_PRICE, 0, 0, true, false, true⟩

/-- Plan returned on the C4 witness scenario: the C1 two-venue books fully
cover the BID order for 25. -/
def exPlan4 : RoutingPlan :=
  ⟨"o1", RoutingStrategy.BEST_PRICE,
    [⟨"A", 10, 100, 0, 0⟩, ⟨"B", 10, 201/2, 0, 1⟩, ⟨"A", 5, 101, 0, 2⟩],
    25, 502/5, 2510, 0, 0⟩

/-- Evaluation of the engine on the C4 witness scenario. -/
theorem exPlan4_ok :
    generateRoutingPlan exOrder1 [exVenue1A, exVenue1B] exBooks1 exCfg4 0 =
      Except.ok exPlan4 := by
  norm_num [generateRoutingPlan, postDecisions, filterVenues, lookupBook, minQtyFilter,
    capMaxVenues, executeBestPriceStrategy, gatherAllPriceLevels, sideLevels, consumingSide,
    walkLevels, sumQuantities, weightedPriceSum, sumFees, calculateMetrics, sortByPriority,
    List.insertionSort, List.orderedInsert, min_def, exOrder1, exVenue1A, exVenue1B,
    exBooks1, exBook1A, exBook1B, exCfg4, exPlan4]

/-- Witness applying C4 at the concrete two-venue scenario with liquidity 30
covering the requested 25. -/
theorem C4_allocation_conservation_witness :
    exPlan4.totalQuantity ≤ exOrder1.quantity ∧ exPlan4.totalQuantity = exOrder1.quantity := by
  have h := C4_allocation_conservation exOrder1 [exVenue1A, exVenue1B] exBooks1 exCfg4 0
    exPlan4
    (by
      intro pr hpr l hl
      simp only [exBooks1, exBook1A, exBook1B, List.mem_cons, List.mem_singleton] at hpr
      rcases hpr with rfl | rfl | hpr
      · simp only [List.mem_append, List.mem_cons, List.mem_singleton] at hl
        rcases hl with h0 | h0 | h0 | h0 <;> first | (rw [h0]; norm_num) | simp at h0
      · simp only [List.mem_append, List.mem_cons, List.mem_singleton] at hl
        rcases hl with h0 | h0 | h0 <;> first | (rw [h0]; norm_num) | simp at h0
      · simp at hpr)
    exPlan4_ok
  have hliq : eligibleLiquidity exOrder1 [exVenue1A, exVenue1B] exBooks1 = 30 := by
    simp [eligibleLiquidity, gatherAllPriceLevels, filterVenues, lookupBook, sideLevels,
      consumingSide, exOrder1, exVenue1A, exVenue1B, exBooks1, exBook1A, exBook1B]
    norm_num
  refine ⟨h.1, h.2 (by norm_num [exCfg4]) (by norm_num [exCfg4]) ?_⟩
  rw [hliq]
  norm_num [exOrder1]

end SOR

namespace SOR

/-! Claim C3: monotonic book invariant. -/

/-- Draw stream exhibiting the monotonicity failure: every draw is 0 except
draw 53, the price jitter of ask depth index 2, which is 0.9.  All draws lie
in the interval [0, 1) required of Math.random(). -/
def exU3 : ℕ → ℚ := fun n => if n = 53 then 9 / 10 else 0

/-- Venue used by the C3 evaluation (latency 0). -/
def exVenue3 : Venue := ⟨"V", "V", "V", 0, 0, 0, true, ""⟩

/-- Book generated from basePrice 100, volatility 0 and the exU3 draws. -/
def exBook3 : OrderBook := generateOrderBook 100 0 exVenue3 "AAPL" exU3 (fun _ => 0) 0

/-- CLAIM C3 evaluation.  With legitimate Math.random draws (all in [0, 1)),
generateOrderBook produces an ask ladder whose levels at depth 2 and 3 share
the price 100.04: the per-level offset i x tick x (1 + u) is not cumulative,
so a large draw at one depth overtakes a small draw at the next and rounding
to 2 decimals collides the prices.  The ask side is not strictly increasing,
refuting the monotonic book invariant. -/
theorem C3_monotonic_book_failure :
    (∀ n, 0 ≤ exU3 n ∧ exU3 n < 1) ∧
    (exBook3.asks.map (fun l => l.price)).take 4 =
      [10001 / 100, 5001 / 50, 2501 / 25, 2501 / 25] ∧
    ¬ asksStrictMono exBook3 := by
  have hmap : exBook3.asks.map (fun l => l.price) =
      [10001 / 100, 5001 / 50, 2501 / 25, 2501 / 25, 2001 / 20, 5003 / 50, 10007 / 100,
       2502 / 25, 10009 / 100, 1001 / 10, 10011 / 100, 2503 / 25, 10013 / 100, 5007 / 50,
       2003 / 20] := by
    norm_num [exBook3, generateOrderBook, generatePriceLevels, round2, jsRound, sideDirection,
      exVenue3, exU3, List.range_succ]
  refine ⟨?_, ?_, ?_⟩
  · intro n
    by_cases h : n = 53
    · rw [h]
      norm_num [exU3]
    · simp only [exU3, if_neg h]
      norm_num
  · rw [hmap]
    rfl
  · rw [asksStrictMono, hmap]
    intro hchain
    have h23 : (2501 / 25 : ℚ) < 2501 / 25 := by
      have := hchain
      simp only [List.chain'_cons] at this
      exact this.2.2.1
    exact absurd h23 (lt_irrefl _)

end SOR
